import Mathlib

/-!
Verification of the TranscribeAI transcription client and audio container
encoder against their natural-language specification.

The definitions below are a shallow embedding of
`src/ai/flows/transcribe-live-speech.ts` and
`src/ai/flows/generate-spoken-audio.ts`:
pure helper functions become Lean functions, the retry loop of
`transcribeLiveSpeechFlow` becomes a fuel-indexed recursion over an oracle
that supplies the outcome of each network attempt, and thrown `Error`
values become explicit failure outcomes carrying the same message strings
the TypeScript code builds.
-/

namespace TranscribeAI

/-- Model of JavaScript `String.prototype.toLowerCase` (ASCII range, which is
all the source ever lowercases): lower-case every character. -/
def strToLower (s : String) : String := String.mk (s.data.map Char.toLower)

/-- Does `pat` occur as a contiguous run inside `l`?  Model of JavaScript
`String.prototype.includes` restricted to character lists. -/
def containsSeq (pat : List Char) : List Char → Bool
  | [] => pat.isEmpty
  | c :: rest => pat.isPrefixOf (c :: rest) || containsSeq pat rest

/-- Model of JavaScript `s.includes(pat)`. -/
def strContains (s pat : String) : Bool := containsSeq pat.data s.data

theorem containsSeq_nil_pat (l : List Char) : containsSeq [] l = true := by
  induction l with
  | nil => rfl
  | cons c rest ih =>
    simp only [containsSeq, List.isPrefixOf, Bool.true_or]

theorem isPrefixOf_append (p l r : List Char) (h : p.isPrefixOf l = true) :
    p.isPrefixOf (l ++ r) = true := by
  induction p generalizing l with
  | nil => simp only [List.isPrefixOf]
  | cons a p ih =>
    cases l with
    | nil => exact Bool.noConfusion h
    | cons b l =>
      simp only [List.cons_append, List.isPrefixOf, Bool.and_eq_true] at h ⊢
      exact ⟨h.1, ih l h.2⟩

theorem containsSeq_append_left (pat l r : List Char)
    (h : containsSeq pat l = true) : containsSeq pat (l ++ r) = true := by
  induction l with
  | nil =>
    cases pat with
    | nil => exact containsSeq_nil_pat r
    | cons a p => exact Bool.noConfusion h
  | cons c rest ih =>
    simp only [containsSeq, List.cons_append, Bool.or_eq_true] at h ⊢
    rcases h with h | h
    · exact Or.inl (isPrefixOf_append pat (c :: rest) r h)
    · exact Or.inr (ih h)

theorem strContains_append_left (a b pat : String)
    (h : strContains a pat = true) : strContains (a ++ b) pat = true := by
  have hd : (a ++ b).data = a.data ++ b.data := rfl
  simpa [strContains, hd] using containsSeq_append_left pat.data a.data b.data h

theorem strToLower_append (a b : String) :
    strToLower (a ++ b) = strToLower a ++ strToLower b := by
  have hd : (a ++ b).data = a.data ++ b.data := rfl
  simp [strToLower, hd]
  rfl

/-- Charset of the MIME-type group in `validateDataUri`'s regular expression
`[a-zA-Z0-9\/\-\+\.]`. -/
def mimeChar (c : Char) : Bool :=
  (('a' ≤ c && c ≤ 'z') || ('A' ≤ c && c ≤ 'Z') || ('0' ≤ c && c ≤ '9')
    || c = '/' || c = '-' || c = '+' || c = '.')

/-- Charset of the payload group in `validateDataUri`'s regular expression
`[A-Za-z0-9+/=]`. -/
def base64Char (c : Char) : Bool :=
  (('a' ≤ c && c ≤ 'z') || ('A' ≤ c && c ≤ 'Z') || ('0' ≤ c && c ≤ '9')
    || c = '+' || c = '/' || c = '=')

/-- Character-list level parse of the anchored regular expression
`^data:([a-zA-Z0-9\/\-\+\.]+);base64,([A-Za-z0-9+/=]+)$` from
`validateDataUri`.  Because `;` is outside the MIME charset and the payload
runs to the end of the string, the regex match is equivalent to this
deterministic parse. -/
def parseDataUriChars (cs : List Char) : Option (List Char × List Char) :=
  if cs.take 5 = "data:".data then
    if (cs.drop 5).takeWhile mimeChar ≠ [] ∧
        ((cs.drop 5).dropWhile mimeChar).take 8 = ";base64,".data then
      if ((cs.drop 5).dropWhile mimeChar).drop 8 ≠ [] ∧
          (((cs.drop 5).dropWhile mimeChar).drop 8).all base64Char then
        some ((cs.drop 5).takeWhile mimeChar,
              ((cs.drop 5).dropWhile mimeChar).drop 8)
      else none
    else none
  else none

/-- Embedding of `validateDataUri` (transcribe-live-speech.ts): returns the
captured `(mimeType, base64)` groups on a match, `none` when the function
would throw its "Invalid audioDataUri" error. -/
def validateDataUri (uri : String) : Option (String × String) :=
  (parseDataUriChars uri.data).map (fun mp => (String.mk mp.1, String.mk mp.2))

/-- Embedding of `mimeTypeToEncoding` (transcribe-live-speech.ts); `none`
stands for the source's `null` encoding (service auto-detection). -/
def mimeTypeToEncoding (mimeType : String) : Option String :=
  let lowerMime := strToLower mimeType
  if strContains lowerMime "webm" then some "WEBM_OPUS"
  else if strContains lowerMime "wav" then some "WAV"
  else if strContains lowerMime "mp3" then some "MP3"
  else if strContains lowerMime "flac" then some "FLAC"
  else if strContains lowerMime "amr" then some "AMR"
  else if strContains lowerMime "ogg" then some "OGG_OPUS"
  else none

/-- The fixed ordered codec table exactly as the spec lists it:
`webm→WEBM_OPUS, wav→WAV, mp3→MP3, flac→FLAC, amr→AMR, ogg→OGG_OPUS`. -/
def codecTable : List (String × String) :=
  [("webm", "WEBM_OPUS"), ("wav", "WAV"), ("mp3", "MP3"),
   ("flac", "FLAC"), ("amr", "AMR"), ("ogg", "OGG_OPUS")]

/-- Codec inference as the spec words it: case-insensitive substring match
against the ordered table, first match wins, no match leaves the hint
unset. -/
def codecInferenceSpec (mediaType : String) : Option String :=
  (codecTable.find? (fun e => strContains (strToLower mediaType) e.1)).map
    Prod.snd

/-! ## The transcription flow

`transcribeLiveSpeechFlow` is modelled as a deterministic function of the
request, the environment credential (`process.env.GEMINI_API_KEY`) and an
oracle giving the outcome of each network attempt (1-based attempt index).
The JSON value obtained from `JSON.parse` is abstracted to the projections
the code reads from it (`json?.error?.message`, `json.results`, and its
`JSON.stringify` rendering, which only feeds message strings). -/

/-- One element of a `results[i].alternatives` array: the code only reads
`alternatives[0].transcript` and checks it is a string. -/
structure Alternative where
  transcript : Option String
deriving DecidableEq

/-- One element of the `results` array: `alternatives` is `some` exactly when
`Array.isArray(r.alternatives)` holds. -/
structure SpeechResult where
  alternatives : Option (List Alternative)
deriving DecidableEq

/-- The parsed response JSON, abstracted to the projections the code reads:
`errorMessage` is `some` when `json?.error?.message` is a string, `results`
is `some` when `json.results` is an array, and `stringified` is the
`JSON.stringify` rendering used in message strings. -/
structure ApiJson where
  errorMessage : Option String
  results : Option (List SpeechResult)
  stringified : String
deriving DecidableEq

/-- The body text of an HTTP response: empty (`json` stays `undefined`),
non-empty but not parseable as JSON (`JSON.parse` throws), or parseable. -/
inductive RespBody where
  | emptyText : RespBody
  | invalid : String → RespBody
  | valid : ApiJson → RespBody
deriving DecidableEq

structure HttpResponse where
  status : Nat
  body : RespBody
deriving DecidableEq

/-- Outcome of `fetchWithTimeout` on one attempt: a response, or a rejection
(network failure / timeout abort) carrying the rejection's message. -/
inductive FetchOutcome where
  | resp : HttpResponse → FetchOutcome
  | netError : String → FetchOutcome
deriving DecidableEq

/-- How one attempt's `try` body ends: a successful return, an exception
propagating to the `catch` block, or `continue` to the next attempt. -/
inductive AttemptStep where
  | done : String → AttemptStep
  | thrown : String → AttemptStep
  | next : String → AttemptStep
deriving DecidableEq

/-- The flow's observable result: the returned transcription, or the thrown
error's message together with the `lastError` cause property that the
exhausted-attempts wrapper attaches. -/
inductive FlowOutcome where
  | success : String → FlowOutcome
  | failure : String → Option String → FlowOutcome
deriving DecidableEq

/-- Observable trace of one `transcribeLiveSpeechFlow` run: the backoff
delays awaited (in order), the number of network calls issued, and the
result. -/
structure Trace where
  delays : List Nat
  calls : Nat
  outcome : FlowOutcome
deriving DecidableEq

def MAX_ATTEMPTS : Nat := 3
def BASE_BACKOFF_MS : Nat := 500

/-- `resp.ok` of the Fetch API: status in the range 200-299. -/
def isOk (status : Nat) : Bool := 200 ≤ status && status < 300

/-- `${JSON.stringify(json)}` where `json` may be `undefined`. -/
def stringifyOpt (json : Option ApiJson) : String :=
  match json with
  | none => "undefined"
  | some j => j.stringified

/-- The message of the error built for a non-2xx status:
`Speech API error (status S): M` with `M = json?.error?.message ??
JSON.stringify(json)`. -/
def apiErrorMessage (status : Nat) (json : Option ApiJson) : String :=
  "Speech API error (status " ++ toString status ++ "): " ++
    (match json with
     | none => "undefined"
     | some j => j.errorMessage.getD j.stringified)

def protocolMessage (text : String) : String :=
  "Unexpected non-JSON response from Speech API: " ++ text

def noResultsMessage (json : Option ApiJson) : String :=
  "Speech API returned no transcription results: " ++ stringifyOpt json

def emptyTranscriptMessage (json : Option ApiJson) : String :=
  "Speech API returned empty transcript text: " ++ stringifyOpt json

def nonRetriableWrap (m : String) : String :=
  "Non-retriable error from Google Speech API: " ++ m ++
    ". Check API key validity, API & billing enabled, and key restrictions."

def exhaustedWrap (m : String) : String :=
  "Transcription failed after " ++ toString MAX_ATTEMPTS ++
    " attempts. Last error: " ++ m

/-- The `catch` block's auth/payment signature test:
`msg.includes('status 401') || msg.includes('status 403') ||
msg.includes('payment required')` on the lower-cased message. -/
def nonRetriableSig (m : String) : Bool :=
  let msg := strToLower m
  strContains msg "status 401" || strContains msg "status 403" ||
    strContains msg "payment required"

/-- `Array.isArray(r.alternatives) && r.alternatives[0]` followed by
`typeof alt.transcript === 'string'`. -/
def firstAltTranscript (r : SpeechResult) : Option String :=
  match r.alternatives with
  | some (a :: _) => a.transcript
  | _ => none

/-- The whitespace class stripped by JavaScript `String.prototype.trim`
(restricted to the ASCII whitespace characters). -/
def jsWhitespace (c : Char) : Bool :=
  (c = ' ' || c = '\t' || c = '\n' || c = '\x0d' || c = '\x0b' || c = '\x0c')

/-- Model of JavaScript `String.prototype.trim`: strip leading and trailing
whitespace. -/
def jsTrim (s : String) : String :=
  String.mk
    (((s.data.dropWhile jsWhitespace).reverse.dropWhile jsWhitespace).reverse)

/-- Model of JavaScript `Array.prototype.join(sep)` on an array of strings. -/
def jsJoin (sep : String) : List String → String
  | [] => ""
  | [x] => x
  | x :: xs => x ++ sep ++ jsJoin sep xs

/-- The aggregation `transcripts.join(' ').trim()` over the first-alternative
transcripts of the results. -/
def aggregateTranscripts (rs : List SpeechResult) : String :=
  jsTrim (jsJoin " " (rs.filterMap firstAltTranscript))

/-- Response handling of one attempt after `JSON.parse` succeeded (or the
body was empty), mirroring the branch ladder in the `try` body. -/
def handleParsed (status : Nat) (json : Option ApiJson) (isLast : Bool) :
    AttemptStep :=
  if isOk status = false then
    let err := apiErrorMessage status json
    if status = 401 ∨ status = 403 ∨ status = 402 then .thrown err
    else if isLast then .thrown err
    else .next err
  else
    match json.bind (fun j => j.results) with
    | none =>
      if isLast then .thrown (noResultsMessage json)
      else .next (noResultsMessage json)
    | some rs =>
      if rs = [] then
        if isLast then .thrown (noResultsMessage json)
        else .next (noResultsMessage json)
      else
        let transcription := aggregateTranscripts rs
        if transcription = "" then
          if isLast then .thrown (emptyTranscriptMessage json)
          else .next (emptyTranscriptMessage json)
        else .done transcription

/-- The whole `try` body of one attempt (after the backoff delay): fetch,
parse, classify. -/
def tryBody (o : FetchOutcome) (isLast : Bool) : AttemptStep :=
  match o with
  | .netError m => .thrown m
  | .resp r =>
    match r.body with
    | .invalid t => .thrown (protocolMessage t)
    | .emptyText => handleParsed r.status none isLast
    | .valid j => handleParsed r.status (some j) isLast

/-- The retry loop `for (attempt = 1; attempt <= MAX_ATTEMPTS; attempt++)`,
fuel-indexed (fuel = remaining loop iterations).  The fuel-0 case is the
unreachable code after the loop. -/
def runLoop (oracle : Nat → FetchOutcome) :
    Nat → Nat → Option String → List Nat → Nat → Trace
  | 0, _, lastError, delays, calls =>
    { delays := delays, calls := calls,
      outcome := .failure
        ("Transcription failed. Last error: " ++ lastError.getD "unknown")
        none }
  | fuel + 1, attempt, _lastError, delays, calls =>
    let delays' :=
      if attempt > 1 then delays ++ [BASE_BACKOFF_MS * 2 ^ (attempt - 1)]
      else delays
    let calls' := calls + 1
    match tryBody (oracle attempt) (attempt == MAX_ATTEMPTS) with
    | .done t => { delays := delays', calls := calls', outcome := .success t }
    | .next e => runLoop oracle fuel (attempt + 1) (some e) delays' calls'
    | .thrown m =>
      if nonRetriableSig m then
        { delays := delays', calls := calls',
          outcome := .failure (nonRetriableWrap m) none }
      else if attempt = MAX_ATTEMPTS then
        { delays := delays', calls := calls',
          outcome := .failure (exhaustedWrap m) (some m) }
      else runLoop oracle fuel (attempt + 1) (some m) delays' calls'

structure TranscribeInput where
  audioDataUri : String
  languageCode : Option String
  apiKey : Option String
deriving DecidableEq

def invalidDataUriMessage : String :=
  "Invalid audioDataUri. Expected a data URI containing a MIME type and " ++
    "base64-encoded data, e.g. 'data:audio/wav;base64,<encoded>'"

def missingKeyMessage : String :=
  "No Google API key provided. Set GEMINI_API_KEY in environment or pass " ++
    "apiKey in the input."

/-- `input.apiKey ?? process.env.GEMINI_API_KEY`: the nullish-coalescing
fallback, which does NOT fall back on an empty string. -/
def resolvedKey (input : TranscribeInput) (env : Option String) :
    Option String :=
  match input.apiKey with
  | some k => some k
  | none => env

/-- Embedding of `transcribeLiveSpeechFlow`: validation, credential
resolution, codec inference, then the retry loop over the oracle. -/
def transcribeFlow (env : Option String) (oracle : Nat → FetchOutcome)
    (input : TranscribeInput) : Trace :=
  match validateDataUri input.audioDataUri with
  | none =>
    { delays := [], calls := 0, outcome := .failure invalidDataUriMessage none }
  | some mb =>
    match resolvedKey input env with
    | none =>
      { delays := [], calls := 0, outcome := .failure missingKeyMessage none }
    | some k =>
      if k = "" then
        { delays := [], calls := 0,
          outcome := .failure missingKeyMessage none }
      else
        let _languageCode := input.languageCode.getD "en-US"
        let _encoding := mimeTypeToEncoding mb.1
        runLoop oracle MAX_ATTEMPTS 1 none [] 0

/-! ## Shared fixtures and reduction lemmas -/

/-- A well-formed request used by the concrete runs below. -/
def sampleInput : TranscribeInput :=
  { audioDataUri := "data:audio/wav;base64,AAAA", languageCode := none,
    apiKey := some "test-key" }

/-- A parsed 402 error body whose server message does not mention
"payment required". -/
def billing402Json : ApiJson :=
  { errorMessage := some "Billing disabled", results := none,
    stringified := "billing-error" }

def billing402Oracle : Nat → FetchOutcome :=
  fun _ => .resp { status := 402, body := .valid billing402Json }

/-- A parsed 500 error body. -/
def internal500Json : ApiJson :=
  { errorMessage := some "Internal error", results := none,
    stringified := "err500" }

/-- A parsed 200 body with one recognized segment "ok". -/
def goodResultsJson : ApiJson :=
  { errorMessage := none,
    results := some [{ alternatives := some [{ transcript := some "ok" }] }],
    stringified := "good" }

/-- HTTP 500 on attempts 1 and 2, then 200 with one result. -/
def fiveHundredTwiceOracle : Nat → FetchOutcome := fun a =>
  if a ≤ 2 then .resp { status := 500, body := .valid internal500Json }
  else .resp { status := 200, body := .valid goodResultsJson }

/-- A non-JSON 200 body on attempt 1, then 200 with one result. -/
def garbageThenGoodOracle : Nat → FetchOutcome := fun a =>
  if a = 1 then .resp { status := 200, body := .invalid "garbage" }
  else .resp { status := 200, body := .valid goodResultsJson }

theorem transcribeFlow_run (env : Option String) (oracle : Nat → FetchOutcome)
    (input : TranscribeInput) (mb : String × String) (k : String)
    (h1 : validateDataUri input.audioDataUri = some mb)
    (h2 : resolvedKey input env = some k) (h3 : k ≠ "") :
    transcribeFlow env oracle input = runLoop oracle 3 1 none [] 0 := by
  unfold transcribeFlow
  rw [h1, h2]
  simp [h3, MAX_ATTEMPTS]

theorem nonRetriableSig_append_left (p suffix : String)
    (h : nonRetriableSig p = true) : nonRetriableSig (p ++ suffix) = true := by
  unfold nonRetriableSig at h ⊢
  rw [strToLower_append]
  simp only [Bool.or_eq_true] at h ⊢
  rcases h with (h | h) | h
  · exact Or.inl (Or.inl (strContains_append_left _ _ _ h))
  · exact Or.inl (Or.inr (strContains_append_left _ _ _ h))
  · exact Or.inr (strContains_append_left _ _ _ h)

theorem sig_apiError_401 (json : Option ApiJson) :
    nonRetriableSig (apiErrorMessage 401 json) = true := by
  have h : nonRetriableSig
      ("Speech API error (status " ++ toString (401 : Nat) ++ "): ") = true := by
    decide
  exact nonRetriableSig_append_left _ _ h

/-- One-step unfolding of the loop at attempt 1 (entry state). -/
theorem runLoop_step1 (oracle : Nat → FetchOutcome) :
    runLoop oracle 3 1 none [] 0 =
      match tryBody (oracle 1) (1 == MAX_ATTEMPTS) with
      | .done t => { delays := [], calls := 1, outcome := .success t }
      | .next e => runLoop oracle 2 2 (some e) [] 1
      | .thrown m =>
        if nonRetriableSig m then
          { delays := [], calls := 1,
            outcome := .failure (nonRetriableWrap m) none }
        else runLoop oracle 2 2 (some m) [] 1 := by
  rfl

/-- One-step unfolding of the loop at attempt 2. -/
theorem runLoop_step2 (oracle : Nat → FetchOutcome) (le : Option String) :
    runLoop oracle 2 2 le [] 1 =
      match tryBody (oracle 2) (2 == MAX_ATTEMPTS) with
      | .done t => { delays := [1000], calls := 2, outcome := .success t }
      | .next e => runLoop oracle 1 3 (some e) [1000] 2
      | .thrown m =>
        if nonRetriableSig m then
          { delays := [1000], calls := 2,
            outcome := .failure (nonRetriableWrap m) none }
        else runLoop oracle 1 3 (some m) [1000] 2 := by
  rfl

/-- One-step unfolding of the loop at the final attempt 3. -/
theorem runLoop_step3 (oracle : Nat → FetchOutcome) (le : Option String) :
    runLoop oracle 1 3 le [1000] 2 =
      match tryBody (oracle 3) (3 == MAX_ATTEMPTS) with
      | .done t => { delays := [1000, 2000], calls := 3, outcome := .success t }
      | .next e =>
        { delays := [1000, 2000], calls := 3,
          outcome := .failure
            ("Transcription failed. Last error: " ++ (some e).getD "unknown") none }
      | .thrown m =>
        if nonRetriableSig m then
          { delays := [1000, 2000], calls := 3,
            outcome := .failure (nonRetriableWrap m) none }
        else
          { delays := [1000, 2000], calls := 3,
            outcome := .failure (exhaustedWrap m) (some m) } := by
  rfl

theorem runLoop_delays13 (oracle : Nat → FetchOutcome) (le : Option String) :
    (runLoop oracle 1 3 le [1000] 2).delays =
      [1000, 2000].take ((runLoop oracle 1 3 le [1000] 2).calls - 1) := by
  rw [runLoop_step3]
  cases h : tryBody (oracle 3) (3 == MAX_ATTEMPTS) with
  | done t => simp
  | next e => simp
  | thrown m =>
    by_cases hs : nonRetriableSig m = true
    · simp [hs]
    · simp [hs]

theorem runLoop_delays22 (oracle : Nat → FetchOutcome) (le : Option String) :
    (runLoop oracle 2 2 le [] 1).delays =
      [1000, 2000].take ((runLoop oracle 2 2 le [] 1).calls - 1) := by
  rw [runLoop_step2]
  cases h : tryBody (oracle 2) (2 == MAX_ATTEMPTS) with
  | done t => simp
  | next e => exact runLoop_delays13 oracle (some e)
  | thrown m =>
    by_cases hs : nonRetriableSig m = true
    · simp [hs]
    · simp only [hs, if_false, Bool.false_eq_true]
      exact runLoop_delays13 oracle (some m)

theorem runLoop_delays_top (oracle : Nat → FetchOutcome) :
    (runLoop oracle 3 1 none [] 0).delays =
      [1000, 2000].take ((runLoop oracle 3 1 none [] 0).calls - 1) := by
  rw [runLoop_step1]
  cases h : tryBody (oracle 1) (1 == MAX_ATTEMPTS) with
  | done t => simp
  | next e => exact runLoop_delays22 oracle (some e)
  | thrown m =>
    by_cases hs : nonRetriableSig m = true
    · simp [hs]
    · simp only [hs, if_false, Bool.false_eq_true]
      exact runLoop_delays22 oracle (some m)

/-- A 200 response with the non-JSON body "garbage" on every attempt. -/
def allGarbageOracle : Nat → FetchOutcome :=
  fun _ => .resp { status := 200, body := .invalid "garbage" }

/-- A parsed 401 error body. -/
def badKey401Json : ApiJson :=
  { errorMessage := some "API key not valid", results := none,
    stringified := "err401" }

def all401Oracle : Nat → FetchOutcome :=
  fun _ => .resp { status := 401, body := .valid badKey401Json }

/-- A parsed 200 body with an empty results array. -/
def emptyResultsJson : ApiJson :=
  { errorMessage := none, results := some [], stringified := "noresults" }

def allEmptyResultsOracle : Nat → FetchOutcome :=
  fun _ => .resp { status := 200, body := .valid emptyResultsJson }

theorem tryBody_emptyResults (j : ApiJson) (b : Bool) (st : Nat)
    (hok : isOk st = true) (hres : j.results = some []) :
    tryBody (.resp { status := st, body := .valid j }) b =
      if b then .thrown (noResultsMessage (some j))
      else .next (noResultsMessage (some j)) := by
  unfold tryBody handleParsed
  simp [hok, hres]

/-! ## Claims -/

/-- C1: the claim says a first-attempt HTTP 402 fails immediately with a
non-retriable error after exactly one network call.  The code contradicts
this (and its own `// Non-retriable` comment): the `catch` block re-classifies
by message text and only matches "status 401", "status 403" or "payment
required", so a 402 response whose server message is "Billing disabled" is
retried.  This run shows three network calls, two backoff delays, and a
terminal exhausted error instead of one call and an auth/billing error. -/
theorem http402_is_retried :
    transcribeFlow none billing402Oracle sampleInput =
      { delays := [1000, 2000], calls := 3,
        outcome := .failure
          (exhaustedWrap (apiErrorMessage 402 (some billing402Json)))
          (some (apiErrorMessage 402 (some billing402Json))) } ∧
    (transcribeFlow none billing402Oracle sampleInput).calls ≠ 1 := by
  decide

/-- C2 counterexample: with HTTP 500 on attempts 1 and 2 and success on
attempt 3, the two delays actually waited are 1000ms and 2000ms, not the
500ms and 1000ms the claim states. -/
theorem backoff_delays_counterexample :
    transcribeFlow none fiveHundredTwiceOracle sampleInput =
      { delays := [1000, 2000], calls := 3, outcome := .success "ok" } ∧
    ([1000, 2000] : List Nat) ≠ [500, 1000] := by
  decide

/-- C2 amended: in every run of transcribe, no delay precedes attempt 1, the
delay before attempt 2 is 1000ms and the delay before attempt 3 is 2000ms
(`500 * 2^(attempt-1)` for the upcoming attempt): the waited delays are
always the prefix of [1000, 2000] of length (number of calls - 1). -/
theorem backoff_delays_amended :
    ∀ (env : Option String) (oracle : Nat → FetchOutcome)
      (input : TranscribeInput),
    (transcribeFlow env oracle input).delays =
      [1000, 2000].take ((transcribeFlow env oracle input).calls - 1) := by
  intro env oracle input
  unfold transcribeFlow
  split
  · rfl
  · split
    · rfl
    · split
      · rfl
      · exact runLoop_delays_top oracle

/-- C3 counterexample: a 200 response whose body is the non-JSON text
"garbage" on attempt 1 does NOT stop the flow: attempt 2 is made and
succeeds, so the run makes two network calls, contradicting "no further
attempts are made after such a response". -/
theorem nonjson_retried_counterexample :
    transcribeFlow none garbageThenGoodOracle sampleInput =
      { delays := [1000], calls := 2, outcome := .success "ok" } ∧
    (transcribeFlow none garbageThenGoodOracle sampleInput).calls ≠ 1 := by
  decide

/-- C3 amended: a non-empty non-JSON body makes the attempt fail with the
protocol error, but (unless the body text itself contains an auth signature)
the error is retriable: with such a body on all three attempts the flow makes
all three network calls and then fails with the exhausted-attempts error
carrying the last protocol error as its cause. -/
theorem nonjson_protocol_error_retriable :
    ∀ (env : Option String) (oracle : Nat → FetchOutcome)
      (input : TranscribeInput) (mb : String × String) (k : String)
      (s1 s2 s3 : Nat) (t1 t2 t3 : String),
      validateDataUri input.audioDataUri = some mb →
      resolvedKey input env = some k → k ≠ "" →
      oracle 1 = .resp { status := s1, body := .invalid t1 } →
      oracle 2 = .resp { status := s2, body := .invalid t2 } →
      oracle 3 = .resp { status := s3, body := .invalid t3 } →
      nonRetriableSig (protocolMessage t1) = false →
      nonRetriableSig (protocolMessage t2) = false →
      nonRetriableSig (protocolMessage t3) = false →
      transcribeFlow env oracle input =
        { delays := [1000, 2000], calls := 3,
          outcome := .failure (exhaustedWrap (protocolMessage t3))
            (some (protocolMessage t3)) } := by
  intro env oracle input mb k s1 s2 s3 t1 t2 t3 hval hkey hne ho1 ho2 ho3 hs1 hs2 hs3
  rw [transcribeFlow_run env oracle input mb k hval hkey hne]
  rw [runLoop_step1, ho1]
  simp only [tryBody, hs1, Bool.false_eq_true, if_false]
  rw [runLoop_step2, ho2]
  simp only [tryBody, hs2, Bool.false_eq_true, if_false]
  rw [runLoop_step3, ho3]
  simp only [tryBody, hs3, Bool.false_eq_true, if_false]

/-- Witness for the amended C3: the concrete all-garbage run. -/
theorem nonjson_protocol_error_retriable_witness :
    transcribeFlow none allGarbageOracle sampleInput =
      { delays := [1000, 2000], calls := 3,
        outcome := .failure (exhaustedWrap (protocolMessage "garbage"))
          (some (protocolMessage "garbage")) } :=
  nonjson_protocol_error_retriable none allGarbageOracle sampleInput
    ("audio/wav", "AAAA") "test-key" 200 200 200 "garbage" "garbage" "garbage"
    (by decide) rfl (by decide) rfl rfl rfl (by decide) (by decide) (by decide)

/-- C6: a first-attempt HTTP 401 (with a body the code can parse, i.e. empty
or valid JSON — a non-JSON body is handled by the earlier parse step) makes
transcribe fail immediately with the non-retriable wrapper after exactly one
network call and no backoff delay. -/
theorem http401_short_circuits :
    ∀ (env : Option String) (oracle : Nat → FetchOutcome)
      (input : TranscribeInput) (mb : String × String) (k : String)
      (r : HttpResponse),
      validateDataUri input.audioDataUri = some mb →
      resolvedKey input env = some k → k ≠ "" →
      oracle 1 = .resp r → r.status = 401 →
      (r.body = .emptyText ∨ ∃ j, r.body = .valid j) →
      ∃ m, transcribeFlow env oracle input =
        { delays := [], calls := 1,
          outcome := .failure (nonRetriableWrap m) none } := by
  intro env oracle input mb k r hval hkey hne ho hst hb
  obtain ⟨st, body⟩ := r
  simp only at hst
  subst hst
  rw [transcribeFlow_run env oracle input mb k hval hkey hne, runLoop_step1, ho]
  rcases hb with hb | ⟨j, hb⟩ <;> simp only at hb <;> subst hb
  · refine ⟨apiErrorMessage 401 none, ?_⟩
    have ht : tryBody (.resp { status := 401, body := .emptyText })
        (1 == MAX_ATTEMPTS) = .thrown (apiErrorMessage 401 none) := rfl
    rw [ht]
    simp only [sig_apiError_401, if_true]
  · refine ⟨apiErrorMessage 401 (some j), ?_⟩
    have ht : tryBody (.resp { status := 401, body := .valid j })
        (1 == MAX_ATTEMPTS) = .thrown (apiErrorMessage 401 (some j)) := rfl
    rw [ht]
    simp only [sig_apiError_401, if_true]

/-- Witness for C6: a concrete 401 run. -/
theorem http401_short_circuits_witness :
    ∃ m, transcribeFlow none all401Oracle sampleInput =
      { delays := [], calls := 1,
        outcome := .failure (TranscribeAI.nonRetriableWrap m) none } :=
  http401_short_circuits none all401Oracle sampleInput ("audio/wav", "AAAA")
    "test-key" { status := 401, body := .valid badKey401Json }
    (by decide) rfl (by decide) rfl rfl (Or.inr ⟨badKey401Json, rfl⟩)

/-- C7: three consecutive 200 responses with an empty results array make
transcribe perform exactly 3 network attempts and then fail with the
exhausted-attempts error carrying the last per-attempt no-results error as
its cause (provided that error's text does not itself contain an auth
signature). -/
theorem empty_results_exhausts :
    ∀ (env : Option String) (oracle : Nat → FetchOutcome)
      (input : TranscribeInput) (mb : String × String) (k : String)
      (j1 j2 j3 : ApiJson),
      validateDataUri input.audioDataUri = some mb →
      resolvedKey input env = some k → k ≠ "" →
      oracle 1 = .resp { status := 200, body := .valid j1 } →
      oracle 2 = .resp { status := 200, body := .valid j2 } →
      oracle 3 = .resp { status := 200, body := .valid j3 } →
      j1.results = some [] → j2.results = some [] → j3.results = some [] →
      nonRetriableSig (noResultsMessage (some j3)) = false →
      transcribeFlow env oracle input =
        { delays := [1000, 2000], calls := 3,
          outcome := .failure (exhaustedWrap (noResultsMessage (some j3)))
            (some (noResultsMessage (some j3))) } := by
  intro env oracle input mb k j1 j2 j3 hval hkey hne ho1 ho2 ho3 hr1 hr2 hr3 hs3
  rw [transcribeFlow_run env oracle input mb k hval hkey hne]
  rw [runLoop_step1, ho1, tryBody_emptyResults j1 _ 200 rfl hr1]
  have hb1 : ((1 == MAX_ATTEMPTS) : Bool) = false := rfl
  rw [hb1]
  simp only [Bool.false_eq_true, if_false]
  rw [runLoop_step2, ho2, tryBody_emptyResults j2 _ 200 rfl hr2]
  have hb2 : ((2 == MAX_ATTEMPTS) : Bool) = false := rfl
  rw [hb2]
  simp only [Bool.false_eq_true, if_false]
  rw [runLoop_step3, ho3, tryBody_emptyResults j3 _ 200 rfl hr3]
  have hb3 : ((3 == MAX_ATTEMPTS) : Bool) = true := rfl
  rw [hb3]
  simp only [hs3, Bool.false_eq_true, if_false, if_true]

/-- Witness for C7: a concrete run with empty results on every attempt. -/
theorem empty_results_exhausts_witness :
    transcribeFlow none allEmptyResultsOracle sampleInput =
      { delays := [1000, 2000], calls := 3,
        outcome := .failure
          (exhaustedWrap (noResultsMessage (some emptyResultsJson)))
          (some (noResultsMessage (some emptyResultsJson))) } :=
  empty_results_exhausts none allEmptyResultsOracle sampleInput
    ("audio/wav", "AAAA") "test-key" emptyResultsJson emptyResultsJson
    emptyResultsJson (by decide) rfl (by decide) rfl rfl rfl rfl rfl rfl
    (by decide)

theorem handleParsed_done_inv (st : Nat) (json : Option ApiJson) (b : Bool)
    (t : String) (h : handleParsed st json b = .done t) :
    t ≠ "" ∧ ∃ j rs, json = some j ∧ isOk st = true ∧ j.results = some rs ∧
      rs ≠ [] ∧ t = aggregateTranscripts rs := by
  unfold handleParsed at h
  by_cases hok : isOk st = false
  · rw [if_pos hok] at h
    (repeat' split at h) <;> simp_all
  · rw [if_neg hok] at h
    have hok' : isOk st = true := by
      cases hv : isOk st
      · exact absurd hv hok
      · rfl
    cases json with
    | none =>
      simp only [Option.none_bind] at h
      cases b <;> simp_all
    | some j =>
      simp only [Option.some_bind] at h
      cases hres : j.results with
      | none =>
        simp only [hres] at h
        cases b <;> simp_all
      | some rs =>
        simp only [hres] at h
        by_cases hrs : rs = []
        · rw [if_pos hrs] at h
          cases b <;> simp_all
        · rw [if_neg hrs] at h
          try simp only [] at h
          by_cases hagg : aggregateTranscripts rs = ""
          · rw [if_pos hagg] at h
            cases b <;> simp_all
          · rw [if_neg hagg] at h
            simp only [AttemptStep.done.injEq] at h
            subst h
            exact ⟨hagg, j, rs, rfl, hok', hres, hrs, rfl⟩

/-- A successful `try` body comes from an ok-status response with valid JSON,
a non-empty results array, and returns the non-empty aggregate. -/
theorem tryBody_done_inv (o : FetchOutcome) (b : Bool) (t : String)
    (h : tryBody o b = .done t) :
    t ≠ "" ∧ ∃ r j rs, o = .resp r ∧ isOk r.status = true ∧
      r.body = .valid j ∧ j.results = some rs ∧ rs ≠ [] ∧
      t = aggregateTranscripts rs := by
  cases o with
  | netError m => exact absurd h (by simp [tryBody])
  | resp r =>
    obtain ⟨st, body⟩ := r
    cases body with
    | invalid s => exact absurd h (by simp [tryBody])
    | emptyText =>
      have h2 : handleParsed st none b = .done t := h
      obtain ⟨hne, j, rs, hj, hok, hres, hrs, ht⟩ :=
        handleParsed_done_inv st none b t h2
      exact absurd hj (by simp)
    | valid j =>
      have h2 : handleParsed st (some j) b = .done t := h
      obtain ⟨hne, j2, rs, hj, hok, hres, hrs, ht⟩ :=
        handleParsed_done_inv st (some j) b t h2
      obtain rfl : j = j2 := by injection hj
      exact ⟨hne, ⟨st, .valid j⟩, j, rs, rfl, hok, rfl, hres, hrs, ht⟩

theorem runLoop13_success_inv (oracle : Nat → FetchOutcome) (le : Option String)
    (t : String) (h : (runLoop oracle 1 3 le [1000] 2).outcome = .success t) :
    t ≠ "" ∧ ∃ r j rs, oracle 3 = .resp r ∧ isOk r.status = true ∧
      r.body = .valid j ∧ j.results = some rs ∧ t = aggregateTranscripts rs := by
  rw [runLoop_step3] at h
  cases h3 : tryBody (oracle 3) (3 == MAX_ATTEMPTS) with
  | done t2 =>
    simp only [h3] at h
    simp only [FlowOutcome.success.injEq] at h
    subst h
    obtain ⟨hne, r, j, rs, ho, hok, hb, hres, hrs, ht⟩ := tryBody_done_inv _ _ _ h3
    exact ⟨hne, r, j, rs, ho, hok, hb, hres, ht⟩
  | next e => simp only [h3] at h; simp at h
  | thrown m =>
    simp only [h3] at h
    by_cases hs : nonRetriableSig m = true
    · rw [if_pos hs] at h; simp at h
    · rw [if_neg hs] at h; simp at h

theorem runLoop22_success_inv (oracle : Nat → FetchOutcome) (le : Option String)
    (t : String) (h : (runLoop oracle 2 2 le [] 1).outcome = .success t) :
    t ≠ "" ∧ ∃ a r j rs, 2 ≤ a ∧ a ≤ 3 ∧ oracle a = .resp r ∧
      isOk r.status = true ∧ r.body = .valid j ∧ j.results = some rs ∧
      t = aggregateTranscripts rs := by
  rw [runLoop_step2] at h
  cases h2 : tryBody (oracle 2) (2 == MAX_ATTEMPTS) with
  | done t2 =>
    simp only [h2] at h
    simp only [FlowOutcome.success.injEq] at h
    subst h
    obtain ⟨hne, r, j, rs, ho, hok, hb, hres, hrs, ht⟩ := tryBody_done_inv _ _ _ h2
    exact ⟨hne, 2, r, j, rs, by omega, by omega, ho, hok, hb, hres, ht⟩
  | next e =>
    simp only [h2] at h
    obtain ⟨hne, r, j, rs, ho, hok, hb, hres, ht⟩ :=
      runLoop13_success_inv oracle (some e) t h
    exact ⟨hne, 3, r, j, rs, by omega, by omega, ho, hok, hb, hres, ht⟩
  | thrown m =>
    simp only [h2] at h
    by_cases hs : nonRetriableSig m = true
    · rw [if_pos hs] at h; simp at h
    · rw [if_neg hs] at h
      obtain ⟨hne, r, j, rs, ho, hok, hb, hres, ht⟩ :=
        runLoop13_success_inv oracle (some m) t h
      exact ⟨hne, 3, r, j, rs, by omega, by omega, ho, hok, hb, hres, ht⟩

theorem runLoop_success_inv (oracle : Nat → FetchOutcome)
    (t : String) (h : (runLoop oracle 3 1 none [] 0).outcome = .success t) :
    t ≠ "" ∧ ∃ a r j rs, 1 ≤ a ∧ a ≤ 3 ∧ oracle a = .resp r ∧
      isOk r.status = true ∧ r.body = .valid j ∧ j.results = some rs ∧
      t = aggregateTranscripts rs := by
  rw [runLoop_step1] at h
  cases h1 : tryBody (oracle 1) (1 == MAX_ATTEMPTS) with
  | done t2 =>
    simp only [h1] at h
    simp only [FlowOutcome.success.injEq] at h
    subst h
    obtain ⟨hne, r, j, rs, ho, hok, hb, hres, hrs, ht⟩ := tryBody_done_inv _ _ _ h1
    exact ⟨hne, 1, r, j, rs, by omega, by omega, ho, hok, hb, hres, ht⟩
  | next e =>
    simp only [h1] at h
    obtain ⟨hne, a, r, j, rs, ha1, ha2, ho, hok, hb, hres, ht⟩ :=
      runLoop22_success_inv oracle (some e) t h
    exact ⟨hne, a, r, j, rs, by omega, by omega, ho, hok, hb, hres, ht⟩
  | thrown m =>
    simp only [h1] at h
    by_cases hs : nonRetriableSig m = true
    · rw [if_pos hs] at h; simp at h
    · rw [if_neg hs] at h
      obtain ⟨hne, a, r, j, rs, ha1, ha2, ho, hok, hb, hres, ht⟩ :=
        runLoop22_success_inv oracle (some m) t h
      exact ⟨hne, a, r, j, rs, by omega, by omega, ho, hok, hb, hres, ht⟩

/-- A 200 response with one result segment "ok" on every attempt. -/
def allGoodOracle : Nat → FetchOutcome :=
  fun _ => .resp { status := 200, body := .valid goodResultsJson }

/-- A parsed 200 body with two result segments "a" and "b". -/
def abJson : ApiJson :=
  { errorMessage := none,
    results := some [⟨some [⟨some "a"⟩]⟩, ⟨some [⟨some "b"⟩]⟩],
    stringified := "ab" }

def abOracle : Nat → FetchOutcome :=
  fun _ => .resp { status := 200, body := .valid abJson }

/-- C8: whenever transcribe succeeds, the returned transcription is the
space-joined, trimmed aggregation of the first-alternative transcripts of
some attempt's results, in service order, and is never empty; in particular
two result segments "a" and "b" on the first attempt yield exactly "a b". -/
theorem success_aggregation :
    (∀ (env : Option String) (oracle : Nat → FetchOutcome)
       (input : TranscribeInput) (t : String),
       (transcribeFlow env oracle input).outcome = .success t →
       t ≠ "" ∧ ∃ a r j rs, 1 ≤ a ∧ a ≤ 3 ∧ oracle a = .resp r ∧
         isOk r.status = true ∧ r.body = .valid j ∧ j.results = some rs ∧
         t = aggregateTranscripts rs)
    ∧ (∀ (env : Option String) (oracle : Nat → FetchOutcome)
       (input : TranscribeInput) (mb : String × String) (k : String)
       (j : ApiJson),
       validateDataUri input.audioDataUri = some mb →
       resolvedKey input env = some k → k ≠ "" →
       oracle 1 = .resp { status := 200, body := .valid j } →
       j.results = some [⟨some [⟨some "a"⟩]⟩, ⟨some [⟨some "b"⟩]⟩] →
       transcribeFlow env oracle input =
         { delays := [], calls := 1, outcome := .success "a b" }) := by
  constructor
  · intro env oracle input t h
    unfold transcribeFlow at h
    split at h
    · simp at h
    · split at h
      · simp at h
      · split at h
        · simp at h
        · simp only [MAX_ATTEMPTS] at h
          exact runLoop_success_inv oracle t h
  · intro env oracle input mb k j hval hkey hne ho hres
    rw [transcribeFlow_run env oracle input mb k hval hkey hne, runLoop_step1, ho]
    have hagg : aggregateTranscripts
        [⟨some [⟨some "a"⟩]⟩, ⟨some [⟨some "b"⟩]⟩] = "a b" := by decide
    have hne2 : ("a b" : String) ≠ "" := by decide
    have hdone : tryBody (.resp { status := 200, body := .valid j })
        (1 == MAX_ATTEMPTS) = .done "a b" := by
      unfold tryBody handleParsed
      simp [hres, hagg, hne2, isOk]
    rw [hdone]

/-- Witness for C8: a concrete successful run with one segment "ok", and the
concrete run whose two segments "a", "b" aggregate to "a b". -/
theorem success_aggregation_witness :
    ("ok" ≠ "" ∧ ∃ a r j rs, 1 ≤ a ∧ a ≤ 3 ∧ allGoodOracle a = .resp r ∧
       isOk r.status = true ∧ r.body = .valid j ∧ j.results = some rs ∧
       "ok" = aggregateTranscripts rs) ∧
    transcribeFlow none abOracle sampleInput =
      { delays := [], calls := 1, outcome := .success "a b" } :=
  ⟨success_aggregation.1 none allGoodOracle sampleInput "ok" (by decide),
   success_aggregation.2 none abOracle sampleInput ("audio/wav", "AAAA")
     "test-key" abJson (by decide) rfl (by decide) rfl rfl⟩

theorem takeWhile_middle (p : Char → Bool) (l : List Char) (c : Char)
    (r : List Char) (hl : ∀ x ∈ l, p x = true) (hc : p c = false) :
    (l ++ c :: r).takeWhile p = l ∧ (l ++ c :: r).dropWhile p = c :: r := by
  induction l with
  | nil =>
    constructor
    · simp [List.takeWhile_cons, hc]
    · simp [List.dropWhile_cons, hc]
  | cons a l ih =>
    have ha : p a = true := hl a (List.mem_cons_self a l)
    have ih2 := ih (fun x hx => hl x (List.mem_cons_of_mem a hx))
    constructor
    · simp [List.takeWhile_cons, ha, ih2.1]
    · simp [List.dropWhile_cons, ha, ih2.2]

/-- Soundness of the parse on well-formed data URIs: the regex accepts and
captures exactly the two groups. -/
theorem parse_forward (md pd : List Char)
    (hm : md ≠ []) (hma : ∀ x ∈ md, mimeChar x = true)
    (hp : pd ≠ []) (hpa : pd.all base64Char = true) :
    parseDataUriChars ("data:".data ++ (md ++ (";base64,".data ++ pd))) =
      some (md, pd) := by
  unfold parseDataUriChars
  have h5 : ("data:".data ++ (md ++ (";base64,".data ++ pd))).take 5 =
      "data:".data := List.take_left' (by decide)
  have hd5 : ("data:".data ++ (md ++ (";base64,".data ++ pd))).drop 5 =
      md ++ (";base64,".data ++ pd) := List.drop_left' (by decide)
  rw [h5, hd5]
  have hcons : md ++ (";base64,".data ++ pd) =
      md ++ (';' :: ("base64,".data ++ pd)) := rfl
  have hsemi : mimeChar ';' = false := by decide
  have htw := takeWhile_middle mimeChar md ';' ("base64,".data ++ pd) hma hsemi
  rw [hcons, htw.1, htw.2]
  have h8 : (';' :: ("base64,".data ++ pd)) = ";base64,".data ++ pd := rfl
  rw [h8]
  have ht8 : (";base64,".data ++ pd).take 8 = ";base64,".data :=
    List.take_left' (by decide)
  have hd8 : (";base64,".data ++ pd).drop 8 = pd := List.drop_left' (by decide)
  rw [ht8, hd8]
  rw [if_pos rfl, if_pos ⟨hm, rfl⟩, if_pos ⟨hp, hpa⟩]

/-- Completeness of the parse: a successful parse means the input had exactly
the `data:<mime>;base64,<payload>` shape over the two charsets. -/
theorem parse_backward (cs md pd : List Char)
    (h : parseDataUriChars cs = some (md, pd)) :
    md ≠ [] ∧ (∀ x ∈ md, mimeChar x = true) ∧ pd ≠ [] ∧
      pd.all base64Char = true ∧
      cs = "data:".data ++ (md ++ (";base64,".data ++ pd)) := by
  unfold parseDataUriChars at h
  by_cases h1 : cs.take 5 = "data:".data
  · rw [if_pos h1] at h
    by_cases h2 : ((cs.drop 5).takeWhile mimeChar ≠ [] ∧
        ((cs.drop 5).dropWhile mimeChar).take 8 = ";base64,".data)
    · rw [if_pos h2] at h
      by_cases h3 : (((cs.drop 5).dropWhile mimeChar).drop 8 ≠ [] ∧
          (((cs.drop 5).dropWhile mimeChar).drop 8).all base64Char = true)
      · rw [if_pos h3] at h
        simp only [Option.some.injEq, Prod.mk.injEq] at h
        obtain ⟨hmd, hpd⟩ := h
        subst hmd
        subst hpd
        refine ⟨h2.1, ?_, h3.1, h3.2, ?_⟩
        · intro x hx
          exact List.all_eq_true.mp
            (List.all_takeWhile (p := mimeChar) (l := cs.drop 5)) x hx
        · calc cs = cs.take 5 ++ cs.drop 5 := (List.take_append_drop 5 cs).symm
            _ = "data:".data ++ cs.drop 5 := by rw [h1]
            _ = "data:".data ++
                ((cs.drop 5).takeWhile mimeChar ++ (cs.drop 5).dropWhile mimeChar) := by
                  rw [List.takeWhile_append_dropWhile]
            _ = "data:".data ++
                ((cs.drop 5).takeWhile mimeChar ++
                  (((cs.drop 5).dropWhile mimeChar).take 8 ++
                    ((cs.drop 5).dropWhile mimeChar).drop 8)) := by
                  rw [List.take_append_drop]
            _ = "data:".data ++
                ((cs.drop 5).takeWhile mimeChar ++
                  (";base64,".data ++ ((cs.drop 5).dropWhile mimeChar).drop 8)) := by
                  rw [h2.2]
      · rw [if_neg h3] at h
        exact Option.noConfusion h
    · rw [if_neg h2] at h
      exact Option.noConfusion h
  · rw [if_neg h1] at h
    exact Option.noConfusion h

/-- C4: validation accepts exactly the strings `data:<mime>;base64,<payload>`
with non-empty groups over the two charsets, extracting (mime, payload)
exactly; on every other string the flow fails immediately with the
malformed-input error, before any network call and with no retry. -/
theorem data_uri_validation :
    (∀ (m p : String),
       m.data ≠ [] → m.data.all mimeChar = true →
       p.data ≠ [] → p.data.all base64Char = true →
       validateDataUri ("data:" ++ m ++ ";base64," ++ p) = some (m, p))
    ∧ (∀ (s : String) (mp : String × String),
       validateDataUri s = some mp →
       mp.1.data ≠ [] ∧ mp.1.data.all mimeChar = true ∧
       mp.2.data ≠ [] ∧ mp.2.data.all base64Char = true ∧
       s = "data:" ++ mp.1 ++ ";base64," ++ mp.2)
    ∧ (∀ (s : String) (env : Option String) (oracle : Nat → FetchOutcome)
       (lang key : Option String),
       validateDataUri s = none →
       transcribeFlow env oracle
         { audioDataUri := s, languageCode := lang, apiKey := key } =
         { delays := [], calls := 0,
           outcome := .failure invalidDataUriMessage none }) := by
  refine ⟨?_, ?_, ?_⟩
  · intro m p hm hma hp hpa
    unfold validateDataUri
    have hdata : ("data:" ++ m ++ ";base64," ++ p).data =
        "data:".data ++ (m.data ++ (";base64,".data ++ p.data)) := by
      show (("data:".data ++ m.data) ++ ";base64,".data) ++ p.data = _
      simp [List.append_assoc]
    rw [hdata,
      parse_forward m.data p.data hm (List.all_eq_true.mp hma) hp hpa]
    rfl
  · intro s mp h
    unfold validateDataUri at h
    cases hp : parseDataUriChars s.data with
    | none => rw [hp] at h; exact Option.noConfusion h
    | some mdpd =>
      obtain ⟨md, pd⟩ := mdpd
      rw [hp] at h
      simp only [Option.map_some', Option.some.injEq] at h
      subst h
      obtain ⟨hb1, hb2, hb3, hb4, hcs⟩ := parse_backward s.data md pd hp
      refine ⟨hb1, List.all_eq_true.mpr hb2, hb3, hb4, ?_⟩
      have hd : s.data = (("data:".data ++ md) ++ ";base64,".data) ++ pd := by
        rw [hcs]; simp [List.append_assoc]
      exact congrArg String.mk hd
  · intro s env oracle lang key h
    simp [transcribeFlow, h]

/-- Witness for C4: the concrete valid URI data:audio/wav;base64,AAAA parses
to its two groups, and the concrete invalid string "nope" fails with the
malformed-input error and zero network calls. -/
theorem data_uri_validation_witness :
    validateDataUri ("data:" ++ "audio/wav" ++ ";base64," ++ "AAAA") =
      some ("audio/wav", "AAAA") ∧
    transcribeFlow none (fun _ => .netError "down")
        { audioDataUri := "nope", languageCode := none, apiKey := some "k" } =
      { delays := [], calls := 0,
        outcome := .failure invalidDataUriMessage none } :=
  ⟨data_uri_validation.1 "audio/wav" "AAAA"
     (by decide) (by decide) (by decide) (by decide),
   data_uri_validation.2.2 "nope" none (fun _ => .netError "down") none
     (some "k") (by decide)⟩

/-- C5: codec inference is a pure function of the mediaType equal to the
first case-insensitive substring match in the ordered table
webm, wav, mp3, flac, amr, ogg, with no match leaving the hint unset; in
particular "audio/webm" maps to WEBM_OPUS, "audio/wav" to WAV and
"audio/unknown" to none. -/
theorem codec_inference :
    (∀ m : String, mimeTypeToEncoding m = codecInferenceSpec m) ∧
    mimeTypeToEncoding "audio/webm" = some "WEBM_OPUS" ∧
    mimeTypeToEncoding "audio/wav" = some "WAV" ∧
    mimeTypeToEncoding "audio/unknown" = none := by
  refine ⟨?_, by decide, by decide, by decide⟩
  intro m
  simp only [mimeTypeToEncoding, codecInferenceSpec, codecTable, List.find?]
  repeat' split <;> simp_all

/-- C10: a request whose apiKey is present but empty fails immediately with
the missing-credential error and zero network calls, even when the
process-wide GEMINI_API_KEY is set: the nullish-coalescing fallback is not
consulted for an empty string (resolvedKey still yields the empty string). -/
theorem empty_api_key_fails :
    ∀ (env : Option String) (oracle : Nat → FetchOutcome)
      (input : TranscribeInput) (mb : String × String),
      validateDataUri input.audioDataUri = some mb →
      input.apiKey = some "" →
      resolvedKey input env = some "" ∧
      transcribeFlow env oracle input =
        { delays := [], calls := 0,
          outcome := .failure missingKeyMessage none } := by
  intro env oracle input mb hval hkey
  have hres : resolvedKey input env = some "" := by
    unfold resolvedKey
    rw [hkey]
  refine ⟨hres, ?_⟩
  unfold transcribeFlow
  rw [hval, hres]
  simp

/-- Witness for C10: a concrete request with `apiKey = ""` and the
environment credential set. -/
theorem empty_api_key_fails_witness :
    resolvedKey
        { audioDataUri := "data:audio/wav;base64,AAAA", languageCode := none,
          apiKey := some "" } (some "env-key") = some "" ∧
    transcribeFlow (some "env-key") billing402Oracle
        { audioDataUri := "data:audio/wav;base64,AAAA", languageCode := none,
          apiKey := some "" } =
      { delays := [], calls := 0,
        outcome := .failure missingKeyMessage none } :=
  empty_api_key_fails (some "env-key") billing402Oracle
    { audioDataUri := "data:audio/wav;base64,AAAA", languageCode := none,
      apiKey := some "" } ("audio/wav", "AAAA") (by decide) rfl

/-! ## The audio container encoder (generate-spoken-audio.ts)

`toWav` delegates container framing to the `wav` npm package's `Writer`,
whose code is not part of this repository; the framing and the base64
re-encoding are therefore modelled from the spec.  Bytes are `Nat`s < 256. -/

def b64Alphabet : List Char :=
  "ABCDEFGHIJKLMNOPQRSTUVWXYZabcdefghijklmnopqrstuvwxyz0123456789+/".data

def b64CharOf (n : Nat) : Char := b64Alphabet.getD n '?'

def b64IndexOf (c : Char) : Option Nat := b64Alphabet.findIdx? (fun x => x == c)

theorem b64IndexOf_b64CharOf : ∀ n < 64, b64IndexOf (b64CharOf n) = some n := by
  decide

theorem b64CharOf_ne_pad : ∀ n < 64, b64CharOf n ≠ '=' := by decide

/-- Standard base64 encoding of a byte sequence (RFC 4648 with padding),
the encoding `Buffer.prototype.toString('base64')` produces. -/
def b64Encode : List Nat → List Char
  | [] => []
  | [b1] => [b64CharOf (b1 / 4), b64CharOf (b1 % 4 * 16), '=', '=']
  | [b1, b2] =>
    [b64CharOf (b1 / 4), b64CharOf (b1 % 4 * 16 + b2 / 16),
     b64CharOf (b2 % 16 * 4), '=']
  | b1 :: b2 :: b3 :: rest =>
    b64CharOf (b1 / 4) :: b64CharOf (b1 % 4 * 16 + b2 / 16) ::
    b64CharOf (b2 % 16 * 4 + b3 / 64) :: b64CharOf (b3 % 64) ::
    b64Encode rest

/-- Base64 decoding, inverse of `b64Encode`. -/
def b64Decode : List Char → Option (List Nat)
  | c1 :: c2 :: c3 :: c4 :: rest =>
    if c3 = '=' ∧ c4 = '=' ∧ rest = [] then
      match b64IndexOf c1, b64IndexOf c2 with
      | some n1, some n2 => some [n1 * 4 + n2 / 16]
      | _, _ => none
    else if c4 = '=' ∧ rest = [] then
      match b64IndexOf c1, b64IndexOf c2, b64IndexOf c3 with
      | some n1, some n2, some n3 =>
        some [n1 * 4 + n2 / 16, n2 % 16 * 16 + n3 / 4]
      | _, _, _ => none
    else
      match b64IndexOf c1, b64IndexOf c2, b64IndexOf c3, b64IndexOf c4,
          b64Decode rest with
      | some n1, some n2, some n3, some n4, some bs =>
        some ((n1 * 4 + n2 / 16) :: (n2 % 16 * 16 + n3 / 4) ::
              (n3 % 4 * 64 + n4) :: bs)
      | _, _, _, _, _ => none
  | [] => some []
  | _ => none

theorem b64_roundtrip : ∀ (bs : List Nat), (∀ b ∈ bs, b < 256) →
    b64Decode (b64Encode bs) = some bs := by
  intro bs
  induction bs using b64Encode.induct with
  | case1 => intro _; simp [b64Encode, b64Decode]
  | case2 b1 =>
    intro h
    have hb1 : b1 < 256 := h b1 (by simp)
    have h1 : b64IndexOf (b64CharOf (b1 / 4)) = some (b1 / 4) :=
      b64IndexOf_b64CharOf _ (by omega)
    have h2 : b64IndexOf (b64CharOf (b1 % 4 * 16)) = some (b1 % 4 * 16) :=
      b64IndexOf_b64CharOf _ (by omega)
    simp [b64Encode, b64Decode, h1, h2]
    omega
  | case3 b1 b2 =>
    intro h
    have hb1 : b1 < 256 := h b1 (by simp)
    have hb2 : b2 < 256 := h b2 (by simp)
    have hne3 : b64CharOf (b2 % 16 * 4) ≠ '=' := b64CharOf_ne_pad _ (by omega)
    have h1 : b64IndexOf (b64CharOf (b1 / 4)) = some (b1 / 4) :=
      b64IndexOf_b64CharOf _ (by omega)
    have h2 : b64IndexOf (b64CharOf (b1 % 4 * 16 + b2 / 16)) =
        some (b1 % 4 * 16 + b2 / 16) := b64IndexOf_b64CharOf _ (by omega)
    have h3 : b64IndexOf (b64CharOf (b2 % 16 * 4)) = some (b2 % 16 * 4) :=
      b64IndexOf_b64CharOf _ (by omega)
    simp [b64Encode, b64Decode, h1, h2, h3, hne3]
    constructor
    · omega
    · omega
  | case4 b1 b2 b3 rest ih =>
    intro h
    have hb1 : b1 < 256 := h b1 (by simp)
    have hb2 : b2 < 256 := h b2 (by simp)
    have hb3 : b3 < 256 := h b3 (by simp)
    have hrest : ∀ b ∈ rest, b < 256 := fun b hb => h b (by simp [hb])
    have hne3 : b64CharOf (b2 % 16 * 4 + b3 / 64) ≠ '=' :=
      b64CharOf_ne_pad _ (by omega)
    have hne4 : b64CharOf (b3 % 64) ≠ '=' := b64CharOf_ne_pad _ (by omega)
    have h1 : b64IndexOf (b64CharOf (b1 / 4)) = some (b1 / 4) :=
      b64IndexOf_b64CharOf _ (by omega)
    have h2 : b64IndexOf (b64CharOf (b1 % 4 * 16 + b2 / 16)) =
        some (b1 % 4 * 16 + b2 / 16) := b64IndexOf_b64CharOf _ (by omega)
    have h3 : b64IndexOf (b64CharOf (b2 % 16 * 4 + b3 / 64)) =
        some (b2 % 16 * 4 + b3 / 64) := b64IndexOf_b64CharOf _ (by omega)
    have h4 : b64IndexOf (b64CharOf (b3 % 64)) = some (b3 % 64) :=
      b64IndexOf_b64CharOf _ (by omega)
    simp [b64Encode, b64Decode, h1, h2, h3, h4, hne3, hne4, ih hrest]
    refine ⟨by omega, by omega, by omega⟩

/-- Little-endian 16-bit field. -/
def u16le (n : Nat) : List Nat := [n % 256, n / 256 % 256]

/-- Little-endian 32-bit field. -/
def u32le (n : Nat) : List Nat :=
  [n % 256, n / 256 % 256, n / 65536 % 256, n / 16777216 % 256]

def asciiBytes (s : String) : List Nat := s.data.map Char.toNat

/-- Modelled from the spec: the container framing the `wav` package's
`Writer` performs (the package is not under src/).  "Deterministic framing:
produces a standard container header (declares channel count, sample rate,
and bit depth = sampleWidth×8) followed by the PCM payload": the standard
RIFF/WAVE header for linear PCM. -/
def wavBytes (channels rate sampleWidth : Nat) (pcm : List Nat) : List Nat :=
  asciiBytes "RIFF" ++ u32le (36 + pcm.length) ++ asciiBytes "WAVE" ++
  asciiBytes "fmt " ++ u32le 16 ++ u16le 1 ++ u16le channels ++ u32le rate ++
  u32le (rate * channels * sampleWidth) ++ u16le (channels * sampleWidth) ++
  u16le (sampleWidth * 8) ++ asciiBytes "data" ++ u32le pcm.length ++ pcm

/-- Embedding of `toWav` (generate-spoken-audio.ts) at its fixed default
parameters `channels = 1`, `rate = 24000`, `sampleWidth = 2`: frame the PCM
bytes and base64-encode the full byte sequence. -/
def toWav (pcm : List Nat) : String :=
  String.mk (b64Encode (wavBytes 1 24000 2 pcm))

/-- Container-header parser: checks the RIFF/WAVE/fmt/data magic tags and
reads back the declared channel count, sample rate, bit depth and payload. -/
def parseWavContainer (bytes : List Nat) :
    Option (Nat × Nat × Nat × List Nat) :=
  match bytes with
  | r1 :: r2 :: r3 :: r4 :: _s1 :: _s2 :: _s3 :: _s4 ::
    w1 :: w2 :: w3 :: w4 :: f1 :: f2 :: f3 :: f4 ::
    _cs1 :: _cs2 :: _cs3 :: _cs4 :: _af1 :: _af2 ::
    ch1 :: ch2 :: sr1 :: sr2 :: sr3 :: sr4 ::
    _br1 :: _br2 :: _br3 :: _br4 :: _ba1 :: _ba2 :: bd1 :: bd2 ::
    d1 :: d2 :: d3 :: d4 :: _dl1 :: _dl2 :: _dl3 :: _dl4 :: pcm =>
    if [r1, r2, r3, r4] = asciiBytes "RIFF" ∧
        [w1, w2, w3, w4] = asciiBytes "WAVE" ∧
        [f1, f2, f3, f4] = asciiBytes "fmt " ∧
        [d1, d2, d3, d4] = asciiBytes "data" then
      some (ch1 + 256 * ch2,
            sr1 + 256 * sr2 + 65536 * sr3 + 16777216 * sr4,
            bd1 + 256 * bd2, pcm)
    else none
  | _ => none

theorem wav_header_parses (pcm : List Nat) :
    parseWavContainer (wavBytes 1 24000 2 pcm) = some (1, 24000, 16, pcm) := by
  rfl

theorem u16le_lt (n : Nat) : ∀ b ∈ u16le n, b < 256 := by
  intro b hb
  simp [u16le] at hb
  rcases hb with rfl | rfl <;> omega

theorem u32le_lt (n : Nat) : ∀ b ∈ u32le n, b < 256 := by
  intro b hb
  simp [u32le] at hb
  rcases hb with rfl | rfl | rfl | rfl <;> omega

theorem wavBytes_lt (pcm : List Nat) (h : ∀ b ∈ pcm, b < 256) :
    ∀ b ∈ wavBytes 1 24000 2 pcm, b < 256 := by
  intro b hb
  simp only [wavBytes, List.append_assoc, List.mem_append] at hb
  rcases hb with hb | hb | hb | hb | hb | hb | hb | hb | hb | hb | hb | hb | hb | hb
  · exact (by decide : ∀ x ∈ asciiBytes "RIFF", x < 256) b hb
  · exact u32le_lt _ b hb
  · exact (by decide : ∀ x ∈ asciiBytes "WAVE", x < 256) b hb
  · exact (by decide : ∀ x ∈ asciiBytes "fmt ", x < 256) b hb
  · exact u32le_lt _ b hb
  · exact u16le_lt _ b hb
  · exact u16le_lt _ b hb
  · exact u32le_lt _ b hb
  · exact u32le_lt _ b hb
  · exact u16le_lt _ b hb
  · exact u16le_lt _ b hb
  · exact (by decide : ∀ x ∈ asciiBytes "data", x < 256) b hb
  · exact u32le_lt _ b hb
  · exact h b hb

/-- C9: the container encoding step is a pure function of the PCM bytes at
the fixed parameters channels=1, sampleRate=24000, sampleWidth=2, and it
round-trips: base64-decoding `toWav`'s output and parsing the container
header yields back exactly the original PCM bytes, channel count 1, sample
rate 24000, and bit depth 16 = sampleWidth × 8. -/
theorem encodeContainer_roundtrip :
    ∀ (pcm : List Nat), (∀ b ∈ pcm, b < 256) →
    Option.bind (b64Decode (toWav pcm).data) parseWavContainer =
      some (1, 24000, 16, pcm) := by
  intro pcm h
  have hdata : (toWav pcm).data = b64Encode (wavBytes 1 24000 2 pcm) := rfl
  rw [hdata, b64_roundtrip _ (wavBytes_lt pcm h)]
  simp only [Option.some_bind]
  exact wav_header_parses pcm

/-- Witness for C9: the round-trip at the concrete PCM byte list
[0, 1, 128, 255]. -/
theorem encodeContainer_roundtrip_witness :
    Option.bind (b64Decode (toWav [0, 1, 128, 255]).data) parseWavContainer =
      some (1, 24000, 16, [0, 1, 128, 255]) :=
  encodeContainer_roundtrip [0, 1, 128, 255] (by decide)

end TranscribeAI
